import Mathlib

/-!
Shallow embedding of the blockchain-data-subnet chat API (FastAPI + SQLAlchemy
over PostgreSQL).  Database tables are Lean lists of records, one structure per
ORM model (src/orm/models).  Each HTTP operation of src/api/routers is a pure
function from its arguments and the current database state to a response and
the successor state; the outbound HTTP call of the relay client is passed in
as an oracle function.  Python exceptions that a handler catches with its
blanket `except Exception` clause are modelled by returning the 500-style
response that the handler produces there; commits apply buffered writes to the
visible state at the commit point, and rollback discards uncommitted writes.
-/

namespace ChatApi

/-! ### Data model (src/orm/models) -/

/-- Row of the `users` table (src/orm/models/user.py). -/
structure User where
  id : Nat
  name : String
  email : String
  created_at : Nat
  password : String
  refresh_token : Option String
  reset_token : Option String
  source : Option String
  is_verified : Bool
deriving DecidableEq

/-- Row of the `validators` table (src/orm/models/validator.py).
`is_active` is a nullable SQL boolean, hence `Option Bool`;
`last_picked` is a nullable timestamp. -/
structure Validator where
  id : Nat
  uid : Nat
  name : String
  hotkey : String
  ip : String
  port : Nat
  last_picked : Option Nat
  is_active : Option Bool
deriving DecidableEq

/-- Row of the `chats` table (src/orm/models/chat.py). -/
structure Chat where
  id : Nat
  name : String
  is_deleted : Bool
  created_at : Nat
  updated_at : Nat
  user_id : Nat
  validator_id : Nat
deriving DecidableEq

/-- Row of the `messages` table (src/orm/models/chat.py). -/
structure Message where
  id : Nat
  chat_id : Nat
  prompt : String
  is_deleted : Bool
  created_at : Nat
  updated_at : Nat
deriving DecidableEq

/-- Row of the `message_variations` table (src/orm/models/chat.py). -/
structure MessageVariation where
  id : Nat
  message_id : Nat
  validator_id : Nat
  created_at : Nat
  reply : String
  miner : String
deriving DecidableEq

/-- The committed database state: the five tables of the schema. -/
structure DB where
  users : List User
  validators : List Validator
  chats : List Chat
  messages : List Message
  message_variations : List MessageVariation
deriving DecidableEq

/-- Fresh surrogate key for an inserted row (stands in for `gen_random_uuid()`;
only freshness could matter, and no claim depends even on that). -/
def freshId (ids : List Nat) : Nat := ids.foldr max 0 + 1

/-! ### SQL ORDER BY, modelled as insertion sort over a boolean order -/

/-- Insert `a` into `l` in front of the first element it sorts before. -/
def insertLe {α : Type} (le : α → α → Bool) (a : α) : List α → List α
  | [] => [a]
  | b :: t => if le a b then a :: b :: t else b :: insertLe le a t

/-- Sort a result set by the boolean order `le` (models SQL ORDER BY). -/
def orderBy {α : Type} (le : α → α → Bool) : List α → List α
  | [] => []
  | a :: t => insertLe le a (orderBy le t)

theorem mem_insertLe {α : Type} (le : α → α → Bool) (a x : α) (l : List α) :
    x ∈ insertLe le a l ↔ x = a ∨ x ∈ l := by
  induction l with
  | nil => simp [insertLe]
  | cons b t ih =>
    by_cases h : le a b = true
    · simp [insertLe, h]
    · simp only [insertLe, if_neg h, List.mem_cons, ih]
      tauto

theorem mem_orderBy {α : Type} (le : α → α → Bool) (x : α) (l : List α) :
    x ∈ orderBy le l ↔ x ∈ l := by
  induction l with
  | nil => simp [orderBy]
  | cons a t ih => simp [orderBy, mem_insertLe, ih]

theorem length_insertLe {α : Type} (le : α → α → Bool) (a : α) (l : List α) :
    (insertLe le a l).length = l.length + 1 := by
  induction l with
  | nil => simp [insertLe]
  | cons b t ih =>
    by_cases h : le a b = true
    · simp [insertLe, h]
    · simp [insertLe, h, ih]

theorem length_orderBy {α : Type} (le : α → α → Bool) (l : List α) :
    (orderBy le l).length = l.length := by
  induction l with
  | nil => rfl
  | cons a t ih => simp [orderBy, length_insertLe, ih]

theorem pairwise_insertLe {α : Type} {le : α → α → Bool}
    (htotal : ∀ a b, le a b = true ∨ le b a = true)
    (htrans : ∀ a b c, le a b = true → le b c = true → le a c = true)
    {l : List α} (a : α) (hl : l.Pairwise (fun x y => le x y = true)) :
    (insertLe le a l).Pairwise (fun x y => le x y = true) := by
  induction l with
  | nil => simp [insertLe]
  | cons b t ih =>
    rcases List.pairwise_cons.mp hl with ⟨hb, ht⟩
    by_cases h : le a b = true
    · simp only [insertLe, if_pos h]
      refine List.pairwise_cons.mpr ⟨?_, hl⟩
      intro x hx
      rcases List.mem_cons.mp hx with rfl | hx
      · exact h
      · exact htrans a b x h (hb x hx)
    · simp only [insertLe, if_neg h]
      refine List.pairwise_cons.mpr ⟨?_, ih ht⟩
      intro x hx
      rcases (mem_insertLe le a x t).mp hx with heq | hx
      · subst heq
        rcases htotal x b with h1 | h1
        · exact absurd h1 h
        · exact h1
      · exact hb x hx

theorem sorted_orderBy {α : Type} {le : α → α → Bool}
    (htotal : ∀ a b, le a b = true ∨ le b a = true)
    (htrans : ∀ a b c, le a b = true → le b c = true → le a c = true)
    (l : List α) :
    (orderBy le l).Pairwise (fun x y => le x y = true) := by
  induction l with
  | nil => simp [orderBy]
  | cons a t ih => exact pairwise_insertLe htotal htrans a ih

/-- The head of an ORDER BY result set is a minimal element of the input. -/
theorem orderBy_head_min {α : Type} {le : α → α → Bool}
    (htotal : ∀ a b, le a b = true ∨ le b a = true)
    (htrans : ∀ a b c, le a b = true → le b c = true → le a c = true)
    {l : List α} {v : α} (hv : (orderBy le l).head? = some v) :
    v ∈ l ∧ ∀ w ∈ l, le v w = true := by
  have hsorted := sorted_orderBy htotal htrans l
  cases hms : orderBy le l with
  | nil => rw [hms] at hv; simp at hv
  | cons a t =>
    rw [hms] at hv
    simp only [List.head?_cons, Option.some.injEq] at hv
    rw [hms] at hsorted
    rcases List.pairwise_cons.mp hsorted with ⟨hhead, _⟩
    have hmem : v ∈ l := (mem_orderBy le v l).mp (by rw [hms, ← hv]; exact List.mem_cons_self a t)
    refine ⟨hmem, ?_⟩
    intro w hw
    have hw2 : w ∈ orderBy le l := (mem_orderBy le w l).mpr hw
    rw [hms] at hw2
    rcases List.mem_cons.mp hw2 with heq | hmemt
    · rw [heq, ← hv]
      rcases htotal a a with h | h
      · exact h
      · exact h
    · rw [← hv]
      exact hhead w hmemt

theorem orderBy_eq_nil_iff {α : Type} (le : α → α → Bool) (l : List α) :
    orderBy le l = [] ↔ l = [] := by
  constructor
  · intro h
    have := length_orderBy le l
    rw [h] at this
    exact List.length_eq_zero.mp this.symm
  · intro h; subst h; rfl

/-! ### Validator selector (src/api/routers/chat/__init__.py, pick_validator) -/

/-- Boolean order of the query `ORDER BY last_picked ASC` as PostgreSQL runs
it: NULL sorts after every non-NULL timestamp (NULLS LAST is the PostgreSQL
default for ascending order). -/
def lastPickedLe (a b : Option Nat) : Bool :=
  match a, b with
  | some x, some y => decide (x ≤ y)
  | some _, none => true
  | none, some _ => false
  | none, none => true

/-- Order on validator rows used by `pick_validator`. -/
def validatorLe (a b : Validator) : Bool := lastPickedLe a.last_picked b.last_picked

/-- `pick_validator` (src/api/routers/chat/__init__.py lines 443-448):
`SELECT ... WHERE is_active = true ORDER BY last_picked ASC`, then `first()`. -/
def pick_validator (db : DB) : Option Validator :=
  (orderBy validatorLe (db.validators.filter (fun v => v.is_active == some true))).head?

theorem lastPickedLe_total (a b : Option Nat) :
    lastPickedLe a b = true ∨ lastPickedLe b a = true := by
  rcases a with _ | x <;> rcases b with _ | y <;> simp [lastPickedLe] <;> omega

theorem lastPickedLe_trans (a b c : Option Nat) :
    lastPickedLe a b = true → lastPickedLe b c = true → lastPickedLe a c = true := by
  rcases a with _ | x <;> rcases b with _ | y <;> rcases c with _ | z <;>
    simp [lastPickedLe] <;> omega

theorem validatorLe_total (a b : Validator) :
    validatorLe a b = true ∨ validatorLe b a = true :=
  lastPickedLe_total a.last_picked b.last_picked

theorem validatorLe_trans (a b c : Validator) :
    validatorLe a b = true → validatorLe b c = true → validatorLe a c = true :=
  lastPickedLe_trans a.last_picked b.last_picked c.last_picked

/-! ### Relay client (src/api/routers/chat/__init__.py, post_msg_request_to_validator) -/

/-- Parsed JSON body of a 200 reply from a validator. -/
structure RelayBody where
  text : String
  miner_id : String
deriving DecidableEq

/-- An HTTP response from a validator endpoint. -/
structure HttpResponse where
  status_code : Nat
  body : RelayBody
deriving DecidableEq

/-- JSON request body built by the relay client.  `temperature_tenths` models
the fixed literal 0.1 as one tenth. -/
structure RelayPayload where
  network : String
  user_id : String
  prompt : String
  miner_id : Option String
  temperature_tenths : Option Nat
deriving DecidableEq

/-- Outbound transport oracle: url and payload to either a response or a
raised transport exception (`Except.error`). -/
def Http : Type := String → RelayPayload → Except Unit HttpResponse

/-- URL selection of the relay client (lines 452-455). -/
def relayUrl (validator_ip : String) (validator_port : Nat) (variation : Bool) : String :=
  if variation then
    "http://" ++ validator_ip ++ ":" ++ toString validator_port ++ "/api/text_query/variant"
  else
    "http://" ++ validator_ip ++ ":" ++ toString validator_port ++ "/api/text_query"

/-- Payload construction of the relay client (lines 457-465). -/
def relayPayload (user_id prompt : String) (variation : Bool) (miner_id : String) :
    RelayPayload :=
  { network := "bitcoin"
    user_id := user_id
    prompt := prompt
    miner_id := if variation then some miner_id else none
    temperature_tenths := if variation then some 1 else none }

/-- `post_msg_request_to_validator` (lines 451-482).  On a 200 response it
returns the parsed body (`some body`); on any other status it logs and falls
through to the trailing `pass`, so the Python function returns `None`
(`Except.ok none`); a transport failure propagates as an exception
(`Except.error`). -/
def post_msg_request_to_validator (user_id prompt validator_ip : String)
    (validator_port : Nat) (variation : Bool) (miner_id : String) (http : Http) :
    Except Unit (Option RelayBody) :=
  match http (relayUrl validator_ip validator_port variation)
      (relayPayload user_id prompt variation miner_id) with
  | .error e => .error e
  | .ok r => if r.status_code == 200 then .ok (some r.body) else .ok none

/-- The fixed apology text that the dead sentinel branch of each caller
compares against (lines 80, 544, 771). -/
def apologyText : String :=
  "Please try again. Can\x27t receive any responses due to the poor network connection."

/-- `str(uuid.UUID(int=0))`: the all-zero UUID of the sentinel payload. -/
def zeroUuid : String := "00000000-0000-0000-0000-000000000000"

/-! ### Validator registry sync (src/app/tasks.py, load_data_task) -/

/-- One validator record parsed out of the registry response (lines 29-37). -/
structure VRecord where
  uid : Nat
  name : String
  hotkey : String
  ip : String
  port : Nat
deriving DecidableEq

/-- `UPDATE validators SET is_active = false WHERE uid NOT IN response_uids`
(lines 43-47). -/
def deactivateAbsent (uids : List Nat) (vs : List Validator) : List Validator :=
  vs.map (fun v => if v.uid ∈ uids then v else { v with is_active := some false })

/-- The `DO UPDATE SET {**validator, is_active: True}` write applied to a
conflicting stored row: every fetched field plus `is_active = true`;
the surrogate id and `last_picked` are untouched. -/
def updateRec (r : VRecord) (v : Validator) : Validator :=
  { v with uid := r.uid, name := r.name, hotkey := r.hotkey, ip := r.ip,
           port := r.port, is_active := some true }

/-- The row written by a fresh `INSERT ... VALUES (**validator)`: only the
fetched fields appear in the VALUES list, so the nullable `is_active` and
`last_picked` columns are left NULL. -/
def insertedRec (r : VRecord) (vs : List Validator) : Validator :=
  { id := freshId (vs.map Validator.id), uid := r.uid, name := r.name,
    hotkey := r.hotkey, ip := r.ip, port := r.port,
    last_picked := none, is_active := none }

/-- `INSERT ... ON CONFLICT (uid) DO UPDATE SET {**validator, is_active: True}`
(lines 50-54). -/
def upsertValidator (r : VRecord) (vs : List Validator) : List Validator :=
  if vs.any (fun v => v.uid == r.uid) then
    vs.map (fun v => if v.uid == r.uid then updateRec r v else v)
  else
    vs ++ [insertedRec r vs]

/-- The database writes of one successful iteration of `load_data_task`
(lines 39-55): deactivate the absent uids, then upsert each fetched record,
all committed once at the end. -/
def load_data_iteration (recs : List VRecord) (vs : List Validator) : List Validator :=
  recs.foldl (fun acc r => upsertValidator r acc)
    (deactivateAbsent (recs.map VRecord.uid) vs)

/-- One whole iteration including the failure path: any exception before the
single commit is logged and swallowed (lines 60-61) and nothing was committed,
so the stored registry is unchanged. -/
def load_data_step (fetched : Except Unit (List VRecord)) (vs : List Validator) :
    List Validator :=
  match fetched with
  | .error _ => vs
  | .ok recs => load_data_iteration recs vs

/-! ### Conversation store (src/api/routers/chat/__init__.py) -/

/-- `SELECT ... FROM chats WHERE id = chat_id AND is_deleted = false`,
first row (used by every chat operation). -/
def findChat (db : DB) (chatId : Nat) : Option Chat :=
  db.chats.find? (fun c => c.id == chatId && !c.is_deleted)

/-- `SELECT ... FROM messages WHERE id = message_id AND chat_id = chat_id AND
is_deleted = false`, `scalar_one_or_none()` (lines 754-757). -/
def findMsgOfChat (db : DB) (msgId chatId : Nat) : Option Message :=
  db.messages.find? (fun m => m.id == msgId && m.chat_id == chatId && !m.is_deleted)

/-- Descending creation-time order used by the latest-variation query. -/
def variationDescLe (a b : MessageVariation) : Bool := decide (b.created_at ≤ a.created_at)

/-- `SELECT ... FROM message_variations WHERE message_id = ... ORDER BY
created_at DESC LIMIT 1` (lines 759-761); `scalar_one()` then raises when this
is `none`. -/
def mostRecentVariation (db : DB) (msgId : Nat) : Option MessageVariation :=
  (orderBy variationDescLe
    (db.message_variations.filter (fun v => v.message_id == msgId))).head?

/-- Direct id lookup of a message-variation row. -/
def findVariationById (db : DB) (vid : Nat) : Option MessageVariation :=
  db.message_variations.find? (fun v => v.id == vid)

/-- Response of `POST /chats` (post_chat, lines 27-99). -/
inductive ChatCreateResp where
  | created (id : Nat) (name : String) (message_id : Nat) (reply : String) (created_at : Nat)
  | error500
deriving DecidableEq

/-- `post_chat` (lines 68-99).  The chat row is committed before the relay
call, the message row (together with the validator `last_picked` update) in a
second commit, the variation row in a third, so a later failure keeps the
earlier commits.  When the relay helper returns `None` (upstream non-200) the
sentinel comparison at line 80 is false, so `reply["text"]` at line 89 raises
a TypeError after the message commit and the handler answers 500. -/
def post_chat (db : DB) (userId : Nat) (message_content : String) (http : Http)
    (now : Nat) : ChatCreateResp × DB :=
  match pick_validator db with
  | none => (.error500, db)
  | some validator =>
    let chatId := freshId (db.chats.map Chat.id)
    let chat : Chat :=
      { id := chatId, name := "Room: " ++ message_content, is_deleted := false,
        created_at := now, updated_at := now, user_id := userId,
        validator_id := validator.id }
    let db1 : DB := { db with chats := db.chats ++ [chat] }
    match post_msg_request_to_validator (toString userId) message_content
        validator.ip validator.port false "" http with
    | .error _ => (.error500, db1)
    | .ok replyQ =>
      let msgId := freshId (db1.messages.map Message.id)
      let msg : Message :=
        { id := msgId, chat_id := chatId, prompt := message_content,
          is_deleted := false, created_at := now, updated_at := now }
      let db2 : DB :=
        { db1 with
          messages := db1.messages ++ [msg]
          validators := db1.validators.map (fun v =>
            if v.id == validator.id then { v with last_picked := some now } else v) }
      match replyQ with
      | none => (.error500, db2)
      | some body =>
        let varId := freshId (db2.message_variations.map MessageVariation.id)
        let db3 : DB :=
          { db2 with
            message_variations := db2.message_variations ++
              [{ id := varId, message_id := msgId, validator_id := validator.id,
                 created_at := now, reply := body.text, miner := body.miner_id }] }
        (.created chatId chat.name msgId body.text now, db3)

/-- Response of `GET /chats/{chat_id}` (get_chat, lines 102-183). -/
inductive GetChatResp where
  | okChat (c : Chat) (msgs : List Message)
  | okNull
  | error500
deriving DecidableEq

/-- `get_chat` (lines 163-183).  Both the 404 raised for a missing chat and
the 403 raised for a foreign chat happen inside the `try`, so the blanket
`except Exception` turns each into the 500 response.  The eager-load query
INNER JOINs messages, so a chat without messages yields no row and the
endpoint returns a null body. -/
def get_chat (db : DB) (chatId userId : Nat) : GetChatResp :=
  match findChat db chatId with
  | none => .error500
  | some c =>
    if c.user_id != userId then .error500
    else
      let msgs := db.messages.filter (fun m => m.chat_id == chatId)
      if msgs.isEmpty then .okNull else .okChat c msgs

/-- Response of `GET /chats` (get_user_chats, lines 279-384). -/
structure ChatListResp where
  total : Nat
  skip : Nat
  limit : Nat
  items : List Chat
deriving DecidableEq

/-- `get_user_chats` (lines 351-384): count plus an OFFSET/LIMIT page of the
non-deleted chats owned by the requester (no ORDER BY, table order). -/
def get_user_chats (db : DB) (userId skip limit : Nat) : ChatListResp :=
  let mine := db.chats.filter (fun c => c.user_id == userId && !c.is_deleted)
  { total := mine.length, skip := skip, limit := limit,
    items := (mine.drop skip).take limit }

/-- Response of `DELETE /chats/{chat_id}` (delete_chat, lines 387-440). -/
inductive DeleteChatResp where
  | ok
  | forbidden403
  | error500
deriving DecidableEq

/-- `delete_chat` (lines 416-440).  The owner check at line 421 dereferences
`db_chat` before the not-found check at line 424, so a missing chat raises
AttributeError on `None` and the blanket except answers 500; the 403 path is
a direct `return JSONResponse`, so it really is a 403. -/
def delete_chat (db : DB) (chatId userId : Nat) : DeleteChatResp × DB :=
  match findChat db chatId with
  | none => (.error500, db)
  | some c =>
    if c.user_id != userId then (.forbidden403, db)
    else
      let messages := db.messages.map (fun m =>
        if m.chat_id == chatId then { m with is_deleted := true } else m)
      let chats := db.chats.map (fun ch =>
        if ch.id == chatId then { ch with is_deleted := true } else ch)
      (.ok, { db with messages := messages, chats := chats })

/-- Descending creation-time order of the message listing. -/
def messageDescLe (a b : Message) : Bool := decide (b.created_at ≤ a.created_at)

/-- `get_chat_messages` (lines 626-643): non-deleted messages of the chat id,
ORDER BY created_at DESC, OFFSET skip LIMIT limit.  The requester is never
compared with anything and the chat row is never loaded.  An empty page makes
line 638 raise a 404 that the blanket except converts into the 500 response
(`Except.error`). -/
def get_chat_messages (db : DB) (chatId userId skip limit : Nat) :
    Except Unit (List Message) :=
  let page := ((orderBy messageDescLe
    (db.messages.filter (fun m => m.chat_id == chatId && !m.is_deleted))).drop skip).take limit
  if page.isEmpty then .error () else .ok page

/-- Response of `PUT /chats/{chat_id}/message/{message_id}`
(create_message_variation, lines 703-787). -/
inductive VariationResp where
  | okContent (content : String)
  | error500
deriving DecidableEq

/-- Result of `create_message_variation` together with the relay payload it
sent, when the control flow reached the relay call. -/
structure VariationOut where
  resp : VariationResp
  db : DB
  sent : Option RelayPayload
deriving DecidableEq

/-- `create_message_variation` (lines 739-787).  A missing chat raises on
`chat.user_id` (line 744) before its not-found check; the 403 raised for a
foreign chat is swallowed by the blanket except into a 500; a missing message
raises on `msg.id` (line 759); `scalar_one()` raises when the message has no
variation (line 762); a missing validator raises on `validator.ip`
(line 767); a `None` relay reply raises on `reply["text"]` (line 774) before
anything is committed. -/
def create_message_variation (db : DB) (chatId msgId userId : Nat)
    (content : String) (http : Http) (now : Nat) : VariationOut :=
  match findChat db chatId with
  | none => ⟨.error500, db, none⟩
  | some chat =>
    if chat.user_id != userId then ⟨.error500, db, none⟩
    else
      let validatorQ := db.validators.find? (fun v => v.id == chat.validator_id)
      match findMsgOfChat db msgId chatId with
      | none => ⟨.error500, db, none⟩
      | some msg =>
        match mostRecentVariation db msg.id with
        | none => ⟨.error500, db, none⟩
        | some lastVariation =>
          match validatorQ with
          | none => ⟨.error500, db, none⟩
          | some validator =>
            let payload := relayPayload (toString userId) content true lastVariation.miner
            match post_msg_request_to_validator (toString userId) content
                validator.ip validator.port true lastVariation.miner http with
            | .error _ => ⟨.error500, db, some payload⟩
            | .ok none => ⟨.error500, db, some payload⟩
            | .ok (some body) =>
              let varId := freshId (db.message_variations.map MessageVariation.id)
              let db2 : DB :=
                { db with
                  message_variations := db.message_variations ++
                    [{ id := varId, message_id := msgId,
                       validator_id := chat.validator_id, created_at := now,
                       reply := body.text, miner := body.miner_id }]
                  messages := db.messages.map (fun m =>
                    if m.id == msgId then { m with updated_at := now } else m)
                  chats := db.chats.map (fun c =>
                    if c.id == chatId then { c with updated_at := now } else c)
                  validators := db.validators.map (fun v =>
                    if v.id == validator.id then { v with last_picked := some now } else v) }
              ⟨.okContent body.text, db2, some payload⟩

/-! ### Authentication (src/api/routers/auth/__init__.py) -/

/-- Response of `POST /token` (login_for_access_token, lines 166-251). -/
inductive LoginResp where
  | unauthorized (detail : String)
  | ok (access_token refresh_token : String)
deriving DecidableEq

/-- `login_for_access_token` (lines 204-251).  The user is looked up by name;
an unknown name is a 401, an unverified user is a 401 before the password is
even checked, a wrong password is a 401; otherwise tokens are minted with
`sub = user.name` and the refresh token is stored on the user row.
`verify` stands for `verify_password` and `mkToken` for `create_access_token`
applied to a subject and a lifetime in minutes. -/
def login_for_access_token (db : DB) (username password : String)
    (verify : String → String → Bool) (mkToken : String → Nat → String) :
    LoginResp × DB :=
  match db.users.find? (fun u => u.name == username) with
  | none => (.unauthorized "Incorrect username or password", db)
  | some user =>
    if !user.is_verified then
      (.unauthorized "Email address not verified. Please check your email to verify your account before logging in", db)
    else if !(verify password user.password) then
      (.unauthorized "Incorrect username or password", db)
    else
      let refresh := mkToken user.name (7*24*60)
      ((.ok (mkToken user.name 30) refresh),
       { db with users := db.users.map (fun u =>
          if u.id == user.id then { u with refresh_token := some refresh } else u) })

/-- `refresh_access_token` (lines 254-302).  `decoded` is the outcome of
`jwt.decode` under the server secret: `Except.error` for a JWTError,
`Except.ok none` for a payload without `sub`, `Except.ok (some sub)`
otherwise.  The user query at lines 295-297 runs but its result is never
inspected, so a new access token is minted from the decoded subject alone;
`Except.error` models the 401. -/
def refresh_access_token (decoded : Except Unit (Option String)) (db : DB)
    (mkToken : String → Nat → String) : Except Unit String :=
  match decoded with
  | .error _ => .error ()
  | .ok none => .error ()
  | .ok (some username) => .ok (mkToken username 30)

/-! ### Concrete fixtures used by witnesses and counterexamples -/

/-- Empty database. -/
def dbEmpty : DB :=
  { users := [], validators := [], chats := [], messages := [],
    message_variations := [] }

/-- Active validator with a NULL `last_picked`. -/
def vNullC2 : Validator :=
  { id := 1, uid := 11, name := "v1", hotkey := "hk1", ip := "10.0.0.1",
    port := 80, last_picked := none, is_active := some true }

/-- Active validator last picked at time 5. -/
def vPickedC2 : Validator :=
  { id := 2, uid := 12, name := "v2", hotkey := "hk2", ip := "10.0.0.2",
    port := 80, last_picked := some 5, is_active := some true }

/-- Registry with both of the above validators. -/
def dbC2 : DB := { dbEmpty with validators := [vNullC2, vPickedC2] }

/-! ### Claim C2: validator selection order -/

/-- Claim C2 as stated is false on the code: the selection query runs
`ORDER BY last_picked ASC` on PostgreSQL, where NULL sorts after every
non-NULL value.  With two active validators, one never picked (NULL) and one
picked at time 5, `pick_validator` returns the timestamped one, although the
claim (nulls ordered before all non-null timestamps) requires the NULL one. -/
theorem pick_validator_c2_counterexample :
    pick_validator dbC2 = some vPickedC2 ∧
    vNullC2 ∈ dbC2.validators ∧ vNullC2.is_active = some true ∧
    vNullC2.last_picked = none ∧ vPickedC2.last_picked = some 5 := by
  decide

/-- Claim C2 amended: `pick_validator` returns an active validator whose
`last_picked` is minimal among active validators with NULL ordered AFTER all
non-null timestamps (PostgreSQL ascending order), and returns no validator
exactly when none is active. -/
theorem pick_validator_c2_amended (db : DB) :
    (pick_validator db = none → ∀ v ∈ db.validators, v.is_active ≠ some true) ∧
    (∀ v, pick_validator db = some v →
      v ∈ db.validators ∧ v.is_active = some true ∧
      ∀ w ∈ db.validators, w.is_active = some true →
        lastPickedLe v.last_picked w.last_picked = true) := by
  constructor
  · intro hnone v hv hact
    unfold pick_validator at hnone
    rcases hcase : orderBy validatorLe
        (db.validators.filter fun v => v.is_active == some true) with _ | ⟨a, t⟩
    · have hfil := (orderBy_eq_nil_iff validatorLe _).mp hcase
      have hvmem : v ∈ db.validators.filter (fun v => v.is_active == some true) :=
        List.mem_filter.mpr ⟨hv, by simp [hact]⟩
      rw [hfil] at hvmem
      exact absurd hvmem (List.not_mem_nil v)
    · rw [hcase] at hnone
      simp at hnone
  · intro v hp
    unfold pick_validator at hp
    obtain ⟨hmem, hmin⟩ := orderBy_head_min validatorLe_total validatorLe_trans hp
    rcases List.mem_filter.mp hmem with ⟨hv, hact⟩
    refine ⟨hv, by simpa using hact, ?_⟩
    intro w hw hwact
    have hwmem : w ∈ db.validators.filter (fun v => v.is_active == some true) :=
      List.mem_filter.mpr ⟨hw, by simp [hwact]⟩
    exact hmin w hwmem

/-- Witness for the amended claim C2 at the concrete registry `dbC2`. -/
theorem pick_validator_c2_amended_witness :
    vPickedC2 ∈ dbC2.validators ∧ vPickedC2.is_active = some true ∧
    ∀ w ∈ dbC2.validators, w.is_active = some true →
      lastPickedLe vPickedC2.last_picked w.last_picked = true :=
  (pick_validator_c2_amended dbC2).2 vPickedC2 (by decide)

/-! ### Claim C10: refresh-token endpoint never checks the stored token -/

/-- Claim C10: `refresh_access_token` answers a fresh access token for every
presented token whose decode yields a non-null `sub`, answers 401
(`Except.error`) exactly when decoding fails or `sub` is null, and its result
is independent of the database state: the queried user row is never
inspected, so neither the stored `refresh_token` nor the existence of the
user matters. -/
theorem refresh_access_token_c10 (d : Except Unit (Option String))
    (db db2 : DB) (mkToken : String → Nat → String) :
    (∀ u, d = .ok (some u) →
      refresh_access_token d db mkToken = .ok (mkToken u 30)) ∧
    ((d = .error () ∨ d = .ok none) →
      refresh_access_token d db mkToken = .error ()) ∧
    refresh_access_token d db mkToken = refresh_access_token d db2 mkToken := by
  refine ⟨?_, ?_, ?_⟩
  · intro u h
    subst h
    rfl
  · rintro (h | h) <;> subst h <;> rfl
  · cases d with
    | error e => rfl
    | ok s => cases s <;> rfl

/-- Witness for claim C10: a token decoding to sub "alice" is refreshed
against an empty user table. -/
theorem refresh_access_token_c10_witness :
    refresh_access_token (.ok (some "alice")) dbEmpty (fun s _ => s ++ "-tok") =
      .ok ("alice" ++ "-tok") :=
  (refresh_access_token_c10 (.ok (some "alice")) dbEmpty dbEmpty
    (fun s _ => s ++ "-tok")).1 "alice" rfl

/-! ### Claim C8: login rejects unverified users -/

/-- Claim C8: a login for an existing user whose `is_verified` flag is false
is rejected with the 401 unverified detail before the password is checked
(for every password verifier, including one accepting the password), and the
state is unchanged: no access or refresh token is issued or stored. -/
theorem login_unverified_c8 (db : DB) (username password : String)
    (verify : String → String → Bool) (mkToken : String → Nat → String)
    (user : User)
    (hfind : db.users.find? (fun u => u.name == username) = some user)
    (hunv : user.is_verified = false) :
    login_for_access_token db username password verify mkToken =
      (.unauthorized "Email address not verified. Please check your email to verify your account before logging in", db) := by
  unfold login_for_access_token
  rw [hfind]
  simp [hunv]

/-- Unverified user row for the claim C8 witness. -/
def userC8 : User :=
  { id := 21, name := "bob", email := "bob@example.com", created_at := 0,
    password := "hash", refresh_token := none, reset_token := none,
    source := none, is_verified := false }

/-- Database holding only the unverified user. -/
def dbC8 : DB := { dbEmpty with users := [userC8] }

/-- Witness for claim C8: the unverified user is rejected although the
password verifier accepts everything. -/
theorem login_unverified_c8_witness :
    login_for_access_token dbC8 "bob" "hash" (fun _ _ => true) (fun s _ => s) =
      (.unauthorized "Email address not verified. Please check your email to verify your account before logging in", dbC8) :=
  login_unverified_c8 dbC8 "bob" "hash" (fun _ _ => true) (fun s _ => s)
    userC8 (by decide) rfl

/-! ### Claim C1: relay failure sentinel -/

/-- Transport oracle of a validator whose endpoint answers HTTP 500. -/
def httpDown : Http :=
  fun _ _ => .ok { status_code := 500, body := { text := "err", miner_id := "" } }

/-- Active validator used when exercising `post_chat`. -/
def validatorC1 : Validator :=
  { id := 3, uid := 13, name := "v3", hotkey := "hk3", ip := "10.0.0.3",
    port := 8001, last_picked := none, is_active := some true }

/-- Registry with one active validator and nothing else. -/
def dbC1 : DB := { dbEmpty with validators := [validatorC1] }

/-- Claim C1 describes the intended sentinel protocol, but the code drops it:
on a non-200 upstream status `post_msg_request_to_validator` logs and falls
through to `pass`, returning `None` rather than the apology/zero-UUID
sentinel, so the sentinel branch of `post_chat` (line 80) never fires,
`reply["text"]` raises and `post_chat` answers 500 with no MessageVariation
persisted. -/
theorem relay_failure_c1 :
    post_msg_request_to_validator "7" "hi" "10.0.0.3" 8001 false "" httpDown =
      .ok none ∧
    post_msg_request_to_validator "7" "hi" "10.0.0.3" 8001 false "" httpDown ≠
      .ok (some { text := apologyText, miner_id := zeroUuid }) ∧
    (post_chat dbC1 7 "hi" httpDown 0).1 = .error500 ∧
    (post_chat dbC1 7 "hi" httpDown 0).2.message_variations = [] := by
  refine ⟨rfl, ?_, rfl, rfl⟩
  intro h
  rw [show post_msg_request_to_validator "7" "hi" "10.0.0.3" 8001 false "" httpDown =
    .ok none from rfl] at h
  simp at h

/-! ### Claim C6: not-found outcome of delete and variation endpoints -/

/-- Transport oracle of a healthy validator that echoes a fixed reply. -/
def httpOk : Http :=
  fun _ _ => .ok { status_code := 200, body := { text := "fine", miner_id := "1" } }

/-- Claim C6 is what the docstrings promise, but on a chat id that matches no
non-deleted chat both handlers dereference the `None` chat before their
not-found checks (lines 421 and 744), raise AttributeError and answer the
generic 500, never a 404. -/
theorem notfound_gives_500_c6 :
    delete_chat dbEmpty 1 1 = (.error500, dbEmpty) ∧
    create_message_variation dbEmpty 1 2 1 "hello" httpOk 0 =
      ⟨.error500, dbEmpty, none⟩ := by
  refine ⟨rfl, rfl⟩

/-! ### Claim C7: chat listing isolation and cross-user chat fetch -/

/-- Chat owned by user 2. -/
def chatC7 : Chat :=
  { id := 10, name := "Room: hey", is_deleted := false, created_at := 0,
    updated_at := 0, user_id := 2, validator_id := 3 }

/-- Message of that chat, so the eager-load join would find a row. -/
def msgC7 : Message :=
  { id := 11, chat_id := 10, prompt := "hey", is_deleted := false,
    created_at := 0, updated_at := 0 }

/-- Database with one chat owned by user 2 and its one message. -/
def dbC7 : DB := { dbEmpty with chats := [chatC7], messages := [msgC7] }

/-- The half of claim C7 about listing holds (the list query filters on the
requesting user), but fetching user 2's existing non-deleted chat as user 1
does not yield a 403-class result: `get_chat` raises the 403 inside its `try`
and the blanket `except Exception` converts it into the generic 500. -/
theorem cross_user_chat_c7 :
    (get_user_chats dbC7 1 0 10).items = [] ∧
    (get_user_chats dbC7 2 0 10).items = [chatC7] ∧
    chatC7.user_id = 2 ∧ chatC7.is_deleted = false ∧
    get_chat dbC7 10 1 = .error500 ∧
    get_chat dbC7 10 2 = .okChat chatC7 [msgC7] := by
  decide

/-! ### Claim C9: unauthorized message listing -/

theorem messageDescLe_total (a b : Message) :
    messageDescLe a b = true ∨ messageDescLe b a = true := by
  simp only [messageDescLe, decide_eq_true_eq]
  omega

theorem messageDescLe_trans (a b c : Message) :
    messageDescLe a b = true → messageDescLe b c = true →
    messageDescLe a c = true := by
  simp only [messageDescLe, decide_eq_true_eq]
  omega

/-- Chat owned by user 2 with no messages at all. -/
def chatC9 : Chat :=
  { id := 4, name := "c9", is_deleted := false, created_at := 0,
    updated_at := 0, user_id := 2, validator_id := 3 }

/-- Database with that empty chat. -/
def dbC9 : DB := { dbEmpty with chats := [chatC9] }

/-- One non-deleted message of chat 4. -/
def msgC9 : Message :=
  { id := 5, chat_id := 4, prompt := "p", is_deleted := false,
    created_at := 1, updated_at := 1 }

/-- Database with the chat of user 2 and its one message. -/
def dbC9b : DB := { dbEmpty with chats := [chatC9], messages := [msgC9] }

/-- Claim C9 as stated is false at a chat with no messages: the list of that
chat's non-deleted messages is empty, but `get_chat_messages` answers the
500-style error (the empty result raises a 404 at line 638 that the blanket
except converts), not that empty list. -/
theorem get_chat_messages_c9_counterexample :
    chatC9 ∈ dbC9.chats ∧ chatC9.is_deleted = false ∧
    dbC9.messages.filter (fun m => m.chat_id == 4 && !m.is_deleted) = [] ∧
    get_chat_messages dbC9 4 1 0 100 = .error () := by
  refine ⟨by decide, by decide, by decide, rfl⟩

/-- Claim C9 amended: the result of `get_chat_messages` is independent of the
requesting user (no ownership or chat-existence check at all, so a user can
list the messages of another user's chat); every successful page is nonempty
and consists of non-deleted messages of the chat ordered newest first; and
whenever the chat has more non-deleted messages than `skip` and `limit` is
positive, the listing succeeds. -/
theorem get_chat_messages_c9_amended (db : DB) (chatId u1 u2 skip limit : Nat) :
    get_chat_messages db chatId u1 skip limit =
      get_chat_messages db chatId u2 skip limit ∧
    (∀ l, get_chat_messages db chatId u1 skip limit = .ok l →
      l ≠ [] ∧
      (∀ m ∈ l, m ∈ db.messages ∧ m.chat_id = chatId ∧ m.is_deleted = false) ∧
      l.Pairwise (fun a b => b.created_at ≤ a.created_at)) ∧
    (skip < (db.messages.filter
        (fun m => m.chat_id == chatId && !m.is_deleted)).length →
      0 < limit →
      ∃ l, get_chat_messages db chatId u1 skip limit = .ok l) := by
  refine ⟨rfl, ?_, ?_⟩
  · intro l hl
    unfold get_chat_messages at hl
    by_cases hemp : (((orderBy messageDescLe (db.messages.filter
        (fun m => m.chat_id == chatId && !m.is_deleted))).drop skip).take limit).isEmpty
    · rw [if_pos hemp] at hl
      exact absurd hl (by simp)
    · rw [if_neg hemp] at hl
      rcases hl
      refine ⟨by simpa [List.isEmpty_iff] using hemp, ?_, ?_⟩
      · intro m hm
        have hm2 : m ∈ orderBy messageDescLe (db.messages.filter
            (fun m => m.chat_id == chatId && !m.is_deleted)) :=
          List.mem_of_mem_drop (List.mem_of_mem_take hm)
        have hm3 := (mem_orderBy messageDescLe m _).mp hm2
        rcases List.mem_filter.mp hm3 with ⟨hmem, hprop⟩
        simp only [Bool.and_eq_true, beq_iff_eq, Bool.not_eq_true'] at hprop
        exact ⟨hmem, hprop.1, hprop.2⟩
      · have hsor := sorted_orderBy messageDescLe_total messageDescLe_trans
          (db.messages.filter (fun m => m.chat_id == chatId && !m.is_deleted))
        have hsub : (((orderBy messageDescLe (db.messages.filter
            (fun m => m.chat_id == chatId && !m.is_deleted))).drop skip).take limit).Sublist
            (orderBy messageDescLe (db.messages.filter
              (fun m => m.chat_id == chatId && !m.is_deleted))) :=
          (List.take_sublist _ _).trans (List.drop_sublist _ _)
        exact (List.Pairwise.sublist hsub hsor).imp (fun h => by
          simpa [messageDescLe] using h)
  · intro hskip hlim
    unfold get_chat_messages
    have hlen : 0 < (((orderBy messageDescLe (db.messages.filter
        (fun m => m.chat_id == chatId && !m.is_deleted))).drop skip).take limit).length := by
      rw [List.length_take, List.length_drop, length_orderBy]
      omega
    have hne : ¬(((orderBy messageDescLe (db.messages.filter
        (fun m => m.chat_id == chatId && !m.is_deleted))).drop skip).take limit).isEmpty := by
      simp only [List.isEmpty_iff]
      exact List.ne_nil_of_length_pos hlen
    rw [if_neg hne]
    exact ⟨_, rfl⟩

/-- Witness for the amended claim C9: user 1 successfully lists the messages
of the chat owned by user 2. -/
theorem get_chat_messages_c9_amended_witness :
    ∃ l, get_chat_messages dbC9b 4 1 0 100 = .ok l :=
  (get_chat_messages_c9_amended dbC9b 4 1 2 0 100).2.2 (by decide) (by decide)

/-! ### Claim C4: soft-delete cascade leaves variations intact -/

/-- Claim C4: when the owner deletes an existing non-deleted chat, the chat
row and every message of the chat get `is_deleted = true`, messages of other
chats are untouched, and the message-variation table is unchanged, so every
variation row is still found by direct id lookup. -/
theorem delete_chat_c4 (db : DB) (chatId userId : Nat) (c : Chat)
    (hfind : findChat db chatId = some c)
    (hown : c.user_id = userId) :
    (delete_chat db chatId userId).1 = .ok ∧
    (∀ ch ∈ (delete_chat db chatId userId).2.chats,
      ch.id = chatId → ch.is_deleted = true) ∧
    (∀ m ∈ (delete_chat db chatId userId).2.messages,
      m.chat_id = chatId → m.is_deleted = true) ∧
    (∀ m ∈ db.messages, m.chat_id ≠ chatId →
      m ∈ (delete_chat db chatId userId).2.messages) ∧
    (delete_chat db chatId userId).2.message_variations = db.message_variations ∧
    (∀ vid, findVariationById (delete_chat db chatId userId).2 vid =
      findVariationById db vid) := by
  have hres : delete_chat db chatId userId =
      (.ok, { db with
        messages := db.messages.map (fun m =>
          if m.chat_id == chatId then { m with is_deleted := true } else m)
        chats := db.chats.map (fun ch =>
          if ch.id == chatId then { ch with is_deleted := true } else ch) }) := by
    unfold delete_chat
    rw [hfind]
    simp [hown]
  rw [hres]
  refine ⟨rfl, ?_, ?_, ?_, rfl, fun vid => rfl⟩
  · intro ch hch hid
    rcases List.mem_map.mp hch with ⟨ch0, _, heq⟩
    by_cases h0 : ch0.id = chatId
    · rw [← heq, if_pos (by simpa using h0)]
    · rw [← heq, if_neg (by simpa using h0)] at hid ⊢
      exact absurd hid h0
  · intro m hm hid
    rcases List.mem_map.mp hm with ⟨m0, _, heq⟩
    by_cases h0 : m0.chat_id = chatId
    · rw [← heq, if_pos (by simpa using h0)]
    · rw [← heq, if_neg (by simpa using h0)] at hid ⊢
      exact absurd hid h0
  · intro m hm hne
    refine List.mem_map.mpr ⟨m, hm, ?_⟩
    rw [if_neg (by simpa using hne)]

/-- Owner, chat, message and variation rows for the claim C4 witness. -/
def chatC4 : Chat :=
  { id := 30, name := "Room: x", is_deleted := false, created_at := 0,
    updated_at := 0, user_id := 6, validator_id := 3 }

/-- Message belonging to the chat being deleted. -/
def msgC4 : Message :=
  { id := 31, chat_id := 30, prompt := "x", is_deleted := false,
    created_at := 0, updated_at := 0 }

/-- Variation of that message; it must survive the cascade. -/
def varC4 : MessageVariation :=
  { id := 32, message_id := 31, validator_id := 3, created_at := 0,
    reply := "y", miner := "m" }

/-- Database for the claim C4 witness. -/
def dbC4 : DB :=
  { dbEmpty with
    chats := [chatC4]
    messages := [msgC4]
    message_variations := [varC4] }

/-- Witness for claim C4 at the concrete database: the variation table is
untouched and the variation is still found by id. -/
theorem delete_chat_c4_witness :
    (delete_chat dbC4 30 6).1 = .ok ∧
    (delete_chat dbC4 30 6).2.message_variations = dbC4.message_variations ∧
    findVariationById (delete_chat dbC4 30 6).2 32 = findVariationById dbC4 32 := by
  have h := delete_chat_c4 dbC4 30 6 chatC4 (by decide) rfl
  exact ⟨h.1, h.2.2.2.2.1, h.2.2.2.2.2 32⟩

/-! ### Claim C5: variation creation without and with a prior variation -/

theorem variationDescLe_total (a b : MessageVariation) :
    variationDescLe a b = true ∨ variationDescLe b a = true := by
  simp only [variationDescLe, decide_eq_true_eq]
  omega

theorem variationDescLe_trans (a b c : MessageVariation) :
    variationDescLe a b = true → variationDescLe b c = true →
    variationDescLe a c = true := by
  simp only [variationDescLe, decide_eq_true_eq]
  omega

/-- Claim C5: for an owned chat and an existing message, if the message has
no variation yet, `create_message_variation` answers the 500-style error
(`scalar_one()` raises on no rows) and leaves the database unchanged, so no
new MessageVariation row appears; and whenever a relay request is sent, it is
a variation request continuing with the miner of a most recently created
existing variation of the message. -/
theorem create_message_variation_c5 (db : DB) (chatId msgId userId : Nat)
    (content : String) (http : Http) (now : Nat) (chat : Chat) (msg : Message)
    (hchat : findChat db chatId = some chat)
    (hown : chat.user_id = userId)
    (hmsg : findMsgOfChat db msgId chatId = some msg) :
    (db.message_variations.filter (fun v => v.message_id == msg.id) = [] →
      (create_message_variation db chatId msgId userId content http now).resp =
        .error500 ∧
      (create_message_variation db chatId msgId userId content http now).db = db) ∧
    (∀ p, (create_message_variation db chatId msgId userId content http now).sent =
        some p →
      ∃ v ∈ db.message_variations,
        v.message_id = msg.id ∧
        (∀ w ∈ db.message_variations, w.message_id = msg.id →
          w.created_at ≤ v.created_at) ∧
        p.miner_id = some v.miner) := by
  constructor
  · intro hempty
    have hmv : mostRecentVariation db msg.id = none := by
      unfold mostRecentVariation
      rw [hempty]
      rfl
    unfold create_message_variation
    rw [hchat]
    simp only [hown, bne_self_eq_false, Bool.false_eq_true, if_false]
    rw [hmsg]
    simp only [hmv]
    exact ⟨trivial, trivial⟩
  · intro p hp
    unfold create_message_variation at hp
    rw [hchat] at hp
    simp only [hown, bne_self_eq_false, Bool.false_eq_true, if_false] at hp
    rw [hmsg] at hp
    rcases hmv : mostRecentVariation db msg.id with _ | lastVariation
    · simp [hmv] at hp
    · simp only [hmv] at hp
      obtain ⟨hvmem, hvmin⟩ :=
        orderBy_head_min variationDescLe_total variationDescLe_trans hmv
      rcases List.mem_filter.mp hvmem with ⟨hmem, hprop⟩
      refine ⟨lastVariation, hmem, by simpa using hprop, ?_, ?_⟩
      · intro w hw hwid
        have hwmem : w ∈ db.message_variations.filter
            (fun v => v.message_id == msg.id) :=
          List.mem_filter.mpr ⟨hw, by simp [hwid]⟩
        have := hvmin w hwmem
        simpa [variationDescLe] using this
      · rcases hvq : db.validators.find? (fun v => v.id == chat.validator_id) with
          _ | validator
        · simp [hvq] at hp
        · simp only [hvq] at hp
          rcases hrel : post_msg_request_to_validator (toString userId) content
              validator.ip validator.port true lastVariation.miner http with e | rq
          · simp only [hrel, Option.some.injEq] at hp
            rw [← hp]
            rfl
          · rcases rq with _ | body
            · simp only [hrel, Option.some.injEq] at hp
              rw [← hp]
              rfl
            · simp only [hrel, Option.some.injEq] at hp
              rw [← hp]
              rfl

/-- Chat, message and database for the claim C5 witness: the message has no
variation yet. -/
def chatC5 : Chat :=
  { id := 40, name := "Room: q", is_deleted := false, created_at := 0,
    updated_at := 0, user_id := 8, validator_id := 3 }

/-- Message of that chat, with no variation rows. -/
def msgC5 : Message :=
  { id := 41, chat_id := 40, prompt := "q", is_deleted := false,
    created_at := 0, updated_at := 0 }

/-- Database for the claim C5 witness. -/
def dbC5 : DB := { dbEmpty with chats := [chatC5], messages := [msgC5] }

/-- Witness for claim C5: with no prior variation the endpoint fails with the
500-style outcome and writes nothing. -/
theorem create_message_variation_c5_witness :
    (create_message_variation dbC5 40 41 8 "again" httpOk 1).resp = .error500 ∧
    (create_message_variation dbC5 40 41 8 "again" httpOk 1).db = dbC5 :=
  (create_message_variation_c5 dbC5 40 41 8 "again" httpOk 1 chatC5 msgC5
    (by decide) rfl (by decide)).1 (by decide)

/-! ### Claim C3: registry sync -/

theorem mem_upsert_ne {r : VRecord} {vs : List Validator} {w : Validator}
    (hw : w ∈ upsertValidator r vs) (hne : w.uid ≠ r.uid) : w ∈ vs := by
  unfold upsertValidator at hw
  by_cases h : vs.any (fun v => v.uid == r.uid)
  · rw [if_pos h] at hw
    rcases List.mem_map.mp hw with ⟨v, hv, heq⟩
    by_cases h0 : v.uid = r.uid
    · rw [if_pos (by simpa using h0)] at heq
      exact absurd (by rw [← heq]; rfl) hne
    · rw [if_neg (by simpa using h0)] at heq
      rw [← heq]
      exact hv
  · rw [if_neg h] at hw
    rcases List.mem_append.mp hw with h1 | h1
    · exact h1
    · have hins : w = insertedRec r vs := by simpa using h1
      exact absurd (by rw [hins]; rfl) hne

theorem upsert_preserve_ne {r : VRecord} {vs : List Validator} {v : Validator}
    (hv : v ∈ vs) (hne : v.uid ≠ r.uid) : v ∈ upsertValidator r vs := by
  unfold upsertValidator
  by_cases h : vs.any (fun x => x.uid == r.uid)
  · rw [if_pos h]
    refine List.mem_map.mpr ⟨v, hv, ?_⟩
    rw [if_neg (by simpa using hne)]
  · rw [if_neg h]
    exact List.mem_append.mpr (Or.inl hv)

theorem upsert_updates {r : VRecord} {vs : List Validator} {v0 : Validator}
    (hv : v0 ∈ vs) (huid : v0.uid = r.uid) :
    updateRec r v0 ∈ upsertValidator r vs := by
  unfold upsertValidator
  rw [if_pos (List.any_eq_true.mpr ⟨v0, hv, by simpa using huid⟩)]
  exact List.mem_map.mpr ⟨v0, hv, by rw [if_pos (by simpa using huid)]⟩

theorem upsert_inserts {r : VRecord} {vs : List Validator}
    (h : ∀ v ∈ vs, v.uid ≠ r.uid) :
    upsertValidator r vs = vs ++ [insertedRec r vs] := by
  have h2 : ¬(vs.any (fun v => v.uid == r.uid) = true) := by
    rw [List.any_eq_true]
    rintro ⟨v, hv, hp⟩
    exact h v hv (by simpa using hp)
  unfold upsertValidator
  rw [if_neg h2]

theorem foldl_upsert_preserve {recs : List VRecord} {acc : List Validator}
    {x : Validator} (hx : x ∈ acc) (h : ∀ r ∈ recs, r.uid ≠ x.uid) :
    x ∈ recs.foldl (fun a r => upsertValidator r a) acc := by
  induction recs generalizing acc with
  | nil => exact hx
  | cons r t ih =>
    simp only [List.foldl_cons]
    exact ih (upsert_preserve_ne hx (Ne.symm (h r (List.mem_cons_self r t))))
      (fun r2 h2 => h r2 (List.mem_cons_of_mem r h2))

theorem foldl_upsert_mem_back {recs : List VRecord} {acc : List Validator}
    {w : Validator} (hw : w ∈ recs.foldl (fun a r => upsertValidator r a) acc)
    (h : ∀ r ∈ recs, r.uid ≠ w.uid) : w ∈ acc := by
  induction recs generalizing acc with
  | nil => exact hw
  | cons r t ih =>
    simp only [List.foldl_cons] at hw
    have hw2 := ih hw (fun r2 h2 => h r2 (List.mem_cons_of_mem r h2))
    exact mem_upsert_ne hw2 (Ne.symm (h r (List.mem_cons_self r t)))

theorem mem_deactivate {uids : List Nat} {vs : List Validator} {w : Validator} :
    w ∈ deactivateAbsent uids vs ↔
      ∃ v ∈ vs, w = if v.uid ∈ uids then v else { v with is_active := some false } := by
  unfold deactivateAbsent
  constructor
  · intro h
    rcases List.mem_map.mp h with ⟨v, hv, heq⟩
    exact ⟨v, hv, heq.symm⟩
  · rintro ⟨v, hv, heq⟩
    exact List.mem_map.mpr ⟨v, hv, heq.symm⟩

/-- Claim C3 amended: after a successful sync iteration every stored row
whose uid is absent from the fetched set is inactive; a fetched record with a
conflicting stored uid overwrites all fetched fields of that row and forces
`is_active = true`; a fetched record with a fresh uid is inserted with its
fetched fields but with `is_active` left NULL (not true) and `last_picked`
NULL; and a failed iteration leaves the registry unchanged (everything up to
the single commit is rolled back). -/
theorem load_data_c3_amended (recs : List VRecord) (vs : List Validator)
    (hr : (recs.map VRecord.uid).Nodup) :
    (∀ w ∈ load_data_iteration recs vs,
      w.uid ∉ recs.map VRecord.uid → w.is_active = some false) ∧
    (∀ r ∈ recs, ∀ v0 ∈ vs, v0.uid = r.uid →
      updateRec r v0 ∈ load_data_iteration recs vs) ∧
    (∀ r ∈ recs, (∀ v0 ∈ vs, v0.uid ≠ r.uid) →
      ∃ w ∈ load_data_iteration recs vs,
        w.uid = r.uid ∧ w.name = r.name ∧ w.hotkey = r.hotkey ∧
        w.ip = r.ip ∧ w.port = r.port ∧ w.last_picked = none ∧
        w.is_active = none) ∧
    load_data_step (.error ()) vs = vs := by
  refine ⟨?_, ?_, ?_, rfl⟩
  · intro w hw hnot
    unfold load_data_iteration at hw
    have hw0 : w ∈ deactivateAbsent (recs.map VRecord.uid) vs := by
      refine foldl_upsert_mem_back hw ?_
      intro r hrmem heq
      exact hnot (heq ▸ List.mem_map_of_mem VRecord.uid hrmem)
    rcases mem_deactivate.mp hw0 with ⟨v, hv, heq⟩
    by_cases hin : v.uid ∈ recs.map VRecord.uid
    · rw [if_pos hin] at heq
      subst heq
      exact absurd hin hnot
    · rw [if_neg hin] at heq
      subst heq
      rfl
  · intro r hrmem v0 hv0 huid
    unfold load_data_iteration
    rcases List.append_of_mem hrmem with ⟨l1, l2, rfl⟩
    rw [List.map_append, List.map_cons] at hr
    rcases List.nodup_append.mp hr with ⟨_, h2, hdisj⟩
    have hnot2 : r.uid ∉ l2.map VRecord.uid := (List.nodup_cons.mp h2).1
    have hnot1 : r.uid ∉ l1.map VRecord.uid :=
      fun hmem => hdisj hmem (List.mem_cons_self _ _)
    have hv0d : v0 ∈ deactivateAbsent ((l1 ++ r :: l2).map VRecord.uid) vs :=
      mem_deactivate.mpr ⟨v0, hv0, by rw [if_pos (by rw [huid]; simp)]⟩
    rw [List.foldl_append, List.foldl_cons]
    refine foldl_upsert_preserve ?_ ?_
    · refine upsert_updates (foldl_upsert_preserve hv0d ?_) huid
      intro r1 h1 heq
      rw [huid] at heq
      exact hnot1 (heq ▸ List.mem_map_of_mem VRecord.uid h1)
    · intro r2 h2m heq
      have : (updateRec r v0).uid = r.uid := rfl
      rw [this] at heq
      exact hnot2 (heq ▸ List.mem_map_of_mem VRecord.uid h2m)
  · intro r hrmem hnone
    unfold load_data_iteration
    rcases List.append_of_mem hrmem with ⟨l1, l2, rfl⟩
    rw [List.map_append, List.map_cons] at hr
    rcases List.nodup_append.mp hr with ⟨_, h2, hdisj⟩
    have hnot2 : r.uid ∉ l2.map VRecord.uid := (List.nodup_cons.mp h2).1
    have hnot1 : r.uid ∉ l1.map VRecord.uid :=
      fun hmem => hdisj hmem (List.mem_cons_self _ _)
    have hP0 : ∀ w ∈ deactivateAbsent ((l1 ++ r :: l2).map VRecord.uid) vs,
        w.uid ≠ r.uid := by
      intro w hw heq
      rcases mem_deactivate.mp hw with ⟨v, hv, hweq⟩
      have huidw : w.uid = v.uid := by
        by_cases hin : v.uid ∈ (l1 ++ r :: l2).map VRecord.uid
        · rw [if_pos hin] at hweq
          rw [hweq]
        · rw [if_neg hin] at hweq
          rw [hweq]
      exact hnone v hv (by rw [← huidw, heq])
    rw [List.foldl_append, List.foldl_cons]
    have hP1 : ∀ w ∈ List.foldl (fun a r => upsertValidator r a)
        (deactivateAbsent ((l1 ++ r :: l2).map VRecord.uid) vs) l1,
        w.uid ≠ r.uid := by
      intro w hw heq
      have hback : w ∈ deactivateAbsent ((l1 ++ r :: l2).map VRecord.uid) vs := by
        refine foldl_upsert_mem_back hw ?_
        intro r1 h1 h1eq
        rw [heq] at h1eq
        exact hnot1 (h1eq ▸ List.mem_map_of_mem VRecord.uid h1)
      exact hP0 w hback heq
    rw [upsert_inserts hP1]
    refine ⟨insertedRec r (List.foldl (fun a r => upsertValidator r a)
      (deactivateAbsent ((l1 ++ r :: l2).map VRecord.uid) vs) l1), ?_,
      rfl, rfl, rfl, rfl, rfl, rfl, rfl⟩
    refine foldl_upsert_preserve (List.mem_append.mpr (Or.inr ?_)) ?_
    · exact List.mem_cons_self _ _
    · intro r2 h2m heq
      have heq2 : r2.uid = r.uid := heq
      exact hnot2 (heq2 ▸ List.mem_map_of_mem VRecord.uid h2m)

/-- Validator record fetched from the registry in the claim C3 scenarios. -/
def recC3 : VRecord :=
  { uid := 7, name := "n7", hotkey := "hk7", ip := "10.0.0.7", port := 9 }

/-- Claim C3 as stated is false on the fresh-insert path: syncing one fetched
record into an empty registry stores it with `is_active` NULL, because the
INSERT values carry no `is_active` and only the conflict branch forces it
true.  The claim requires `is_active = true` for every upserted record. -/
theorem load_data_c3_counterexample :
    load_data_iteration [recC3] [] =
      [{ id := 1, uid := 7, name := "n7", hotkey := "hk7", ip := "10.0.0.7",
         port := 9, last_picked := none, is_active := none }] ∧
    ∀ w ∈ load_data_iteration [recC3] [], w.is_active ≠ some true := by
  refine ⟨by decide, by decide⟩

/-- Stored validator sharing the fetched uid, for the claim C3 witness. -/
def vOldC3 : Validator :=
  { id := 2, uid := 7, name := "old", hotkey := "hkold", ip := "10.0.0.8",
    port := 1, last_picked := some 3, is_active := some false }

/-- Witness for the amended claim C3: a conflicting stored row is overwritten
with the fetched fields and activated, and a failed iteration changes
nothing. -/
theorem load_data_c3_amended_witness :
    updateRec recC3 vOldC3 ∈ load_data_iteration [recC3] [vOldC3] ∧
    load_data_step (.error ()) [vOldC3] = [vOldC3] := by
  have h := load_data_c3_amended [recC3] [vOldC3] (by decide)
  exact ⟨h.2.1 recC3 (List.mem_cons_self _ _) vOldC3 (List.mem_cons_self _ _) rfl,
    h.2.2.2⟩

end ChatApi
